import Mathlib

/-
  Verification development for the element arena of a retained-mode UI core
  (src/packages/core/src/arena.rs): identifier table, element path matching,
  scope destruction walker and drop-safety pass.

  Machine integers (usize, u8) are modelled as Nat, with `% 256` where the
  source casts `usize` to `u8`.  Raw pointers into the bump arena are
  modelled as abstract numeric addresses.  A Rust panic is modelled as the
  `Option.none` outcome of an operation; recoverable "not found" results
  keep their own inner `Option` so that the fatal and the recoverable cases
  stay distinguishable.  Scope destruction emits an explicit event trace so
  that ordering guarantees can be stated about it.
-/

namespace DioxusArena

/-- Path of an element inside a template: either a byte walk from the
template root (Deep) or a direct index into the top-level output list
(Root).  From arena.rs, enum ElementPath. -/
inductive ElementPath where
  | Deep (path : List Nat)
  | Root (r : Nat)
deriving DecidableEq

/-- Per-identifier record stored by the identifier table: a path and an
optional non-owning template back-reference, modelled as an abstract
address.  From arena.rs, struct ElementRef. -/
structure ElementRef where
  path : ElementPath
  template : Option Nat
deriving DecidableEq

/-- ElementRef::none from arena.rs: no template, path Root(0). -/
def ElementRef.none : ElementRef :=
  { path := ElementPath.Root 0, template := Option.none }

/-- ElementPath::is_ascendant from arena.rs.  The source compares
`big[0] == r as u8`; the usize-to-u8 cast is the `% 256`. -/
def ElementPath.is_ascendant (p : ElementPath) (big : List Nat) : Bool :=
  match p with
  | ElementPath.Deep small =>
      decide (small.length ≤ big.length) && decide (small = big.take small.length)
  | ElementPath.Root r =>
      decide (big.length = 1) && decide (big.getD 0 0 = r % 256)

/-- PartialEq<&[u8]> for ElementPath from arena.rs, with the same
usize-to-u8 cast on the Root comparison. -/
def ElementPath.slice_eq (p : ElementPath) (other : List Nat) : Bool :=
  match p with
  | ElementPath.Deep deep => decide (deep = other)
  | ElementPath.Root r =>
      decide (other.length = 1) && decide (other.getD 0 0 = r % 256)

/-- AttributeValue as it is observed by ensure_drop_safety: a listener
closure, an arbitrary attached value, or anything else (skipped).  The
numeric field is the identity of the attribute entry. -/
inductive AttributeValue where
  | Listener (id : Nat)
  | AnyVal (id : Nat)
  | Other
deriving DecidableEq

mutual
/-- Dynamic slot of a rendered node: nested component (index into the
component-slot table), fragment, placeholder or text.  From the match in
drop_scope_inner in arena.rs. -/
inductive DynamicNode where
  | Component (comp : Nat)
  | Fragment (nodes : List VNode)
  | Placeholder (id : Option Nat)
  | Text (id : Option Nat)

/-- Rendered template node: top-level root identifiers, listener wiring
entries, and dynamic slots.  root_ids and dynamic_nodes are the fields
drop_scope_inner walks; listeners stands for the wiring cleared by
clear_listeners. -/
inductive VNode where
  | mk (root_ids : List Nat) (listeners : List Nat) (dynamic_nodes : List DynamicNode)
end

/-- Modelled from the spec: a rendered output is either a resolved template
node (RenderReturn::Ready) or a deferred marker.  The RenderReturn type
itself lives outside src/. -/
inductive RenderReturn where
  | Ready (v : VNode)
  | Pending

/-- One component slot (VComponent) as seen through the raw pointers held
in borrowed_props: the optional resolved child scope, whether its props
value is still present, and whether the props cell is currently borrowed
elsewhere (try_borrow_mut would fail). -/
structure Comp where
  scope : Option Nat
  props : Bool
  propsBorrowed : Bool
deriving DecidableEq

/-- Modelled from the spec where the ScopeState type is outside src/: the
registries that ensure_drop_safety drains, the props slot, the current and
previous rendered outputs (try_root_node / previous_frame), and the hook
slots in insertion order. -/
structure Scope where
  borrowed_props : List Nat
  attributes_to_drop : List AttributeValue
  props : Bool
  node : Option RenderReturn
  prev : Option RenderReturn
  hook_list : List Nat

/-- Whole-engine state: the identifier table (a reusable-slot allocator),
the scope table, and the component-slot table addressed by the raw
pointers of borrowed_props and DynamicNode.Component. -/
structure State where
  elements : List (Option ElementRef)
  scopes : List (Option Scope)
  comps : List Comp

def State.setScope (st : State) (i : Nat) (s : Scope) : State :=
  { st with scopes := st.scopes.set i (some s) }

def State.setComp (st : State) (i : Nat) (c : Comp) : State :=
  { st with comps := st.comps.set i c }

/-- Slab indexing of the scope table; a vacant or out-of-range slot is an
indexing fault. -/
def getScope (st : State) (i : Nat) : Option Scope :=
  match st.scopes.getD i Option.none with
  | some s => some s
  | Option.none => Option.none

/-- VirtualDom::try_reclaim from arena.rs.  The outer Option.none is the
id-0 panic; the inner Option is the recoverable result of
slab::try_remove (None when the slot was already empty). -/
def tryReclaim (st : State) (el : Nat) : Option (State × Option ElementRef) :=
  if el = 0 then Option.none
  else
    match st.elements.getD el Option.none with
    | some r => some ({ st with elements := st.elements.set el Option.none }, some r)
    | Option.none => some (st, Option.none)

/-- VirtualDom::reclaim from arena.rs: try_reclaim, with the None result
turned into a panic by unwrap_or_else. -/
def reclaim (st : State) (el : Nat) : Option State :=
  match tryReclaim st el with
  | some (st1, some _) => some st1
  | some (_, Option.none) => Option.none
  | Option.none => Option.none

/-- Observable events of scope destruction, in emission order. -/
inductive Event where
  | wiringCleared (listener : Nat)
  | borrowCleared (owner : Nat) (comp : Nat)
  | attrCleared (owner : Nat) (attr : Nat)
  | reclaimed (id : Nat)
  | propsTaken (scope : Nat)
  | hookDropped (scope : Nat) (hook : Nat)
deriving DecidableEq

/-- A call to try_reclaim inside teardown, recording a `reclaimed` event
exactly when a stored reference was actually removed. -/
def tryReclaimEv (st : State) (el : Nat) : Option (State × List Event) :=
  match tryReclaim st el with
  | some (st1, some _) => some (st1, [Event.reclaimed el])
  | some (st1, Option.none) => some (st1, [])
  | Option.none => Option.none

/-- Modelled from the spec: the identifier table reserves the next free
slot, reusing a previously reclaimed slot when available and otherwise
growing (the slab allocator itself is an external collaborator).  vacantKey
is the key handed out by vacant_entry. -/
def vacantKey : List (Option ElementRef) → Nat
  | [] => 0
  | Option.none :: _ => 0
  | some _ :: rest => vacantKey rest + 1

/-- Insertion at the vacant key: reuse the slot when one exists, grow
otherwise. -/
def slabInsert (l : List (Option ElementRef)) (r : ElementRef) : List (Option ElementRef) :=
  if vacantKey l < l.length then l.set (vacantKey l) (some r) else l ++ [some r]

/-- VirtualDom::next_reference from arena.rs: store a reference with a
template back-pointer at the vacant key and return the key. -/
def next_reference (st : State) (template : Nat) (path : ElementPath) : State × Nat :=
  ({ st with elements := slabInsert st.elements { path := path, template := some template } },
   vacantKey st.elements)

/-- VirtualDom::next_element from arena.rs. -/
def next_element (st : State) (template : Nat) (path : List Nat) : State × Nat :=
  next_reference st template (ElementPath.Deep path)

/-- VirtualDom::next_root from arena.rs. -/
def next_root (st : State) (template : Nat) (path : Nat) : State × Nat :=
  next_reference st template (ElementPath.Root path)

/-- VirtualDom::next_null from arena.rs: store ElementRef::none at the
vacant key and return the key. -/
def next_null (st : State) : State × Nat :=
  ({ st with elements := slabInsert st.elements ElementRef.none },
   vacantKey st.elements)

/-- VirtualDom::update_template from arena.rs: repoint the template
reference of an existing identifier; indexing a vacant slot is a fault. -/
def update_template (st : State) (el : Nat) (node : Nat) : Option State :=
  match st.elements.getD el Option.none with
  | some r =>
      some { st with elements := st.elements.set el (some { r with template := some node }) }
  | Option.none => Option.none

/-- Iterated next_null, used to state slot-reuse eligibility. -/
def allocN : State → Nat → State
  | st, 0 => st
  | st, k + 1 => allocN (next_null st).1 k

/-- Step 2 of ensure_drop_safety on one registry entry: listener and
arbitrary values are taken, anything else is silently skipped. -/
def attrEvent (owner : Nat) : AttributeValue → Option Event
  | AttributeValue.Listener i => some (Event.attrCleared owner i)
  | AttributeValue.AnyVal i => some (Event.attrCleared owner i)
  | AttributeValue.Other => Option.none

/-- Work items of the destruction interpreter, one per source function or
source loop: ensure_drop_safety, its borrowed-props loop, drop_scope,
drop_scope_inner, the dynamic-node loop, the fragment loop, and the
root-id loop. -/
inductive Task where
  | eds (id : Nat)
  | edsComps (owner : Nat) (cs : List Nat)
  | drop (id : Nat)
  | inner (owner : Nat) (n : VNode)
  | dyns (owner : Nat) (ds : List DynamicNode)
  | frags (owner : Nat) (ns : List VNode)
  | roots (ids : List Nat)

/-- Recursive-call signature handed to the per-task step functions: the
interpreter at one unit less fuel. -/
abbrev Recur := State → Task → Option (State × List Event)

/-- Body of ensure_drop_safety from arena.rs: drain the borrowed-props
registry (running the loop over its entries, which recurses into child
scopes), then drain the attribute/listener registry. -/
def edsStep (recur : Recur) (st : State) (id : Nat) : Option (State × List Event) := do
  let sc ← getScope st id
  let st1 := st.setScope id { sc with borrowed_props := [] }
  let (st2, tr1) ← recur st1 (Task.edsComps id sc.borrowed_props)
  let sc2 ← getScope st2 id
  let evs := sc2.attributes_to_drop.filterMap (attrEvent id)
  some (st2.setScope id { sc2 with attributes_to_drop := [] }, tr1 ++ evs)

/-- Body of the borrowed-props drain loop of ensure_drop_safety: for each
component slot, recurse into the resolved child scope when it is a
different scope, then clear the lent props value unless its cell is
currently borrowed elsewhere. -/
def edsCompsStep (recur : Recur) (st : State) (owner : Nat) :
    List Nat → Option (State × List Event)
  | [] => some (st, [])
  | c :: cs => do
      let comp ← st.comps.get? c
      let (st1, trC) ←
        match comp.scope with
        | some child =>
            if child = owner then some (st, ([] : List Event))
            else recur st (Task.eds child)
        | Option.none => some (st, ([] : List Event))
      let comp1 ← st1.comps.get? c
      if comp1.propsBorrowed then
        let (st3, trR) ← recur st1 (Task.edsComps owner cs)
        some (st3, trC ++ trR)
      else
        let ev := if comp1.props then [Event.borrowCleared owner c] else []
        let st2 := st1.setComp c { comp1 with props := false }
        let (st3, trR) ← recur st2 (Task.edsComps owner cs)
        some (st3, trC ++ (ev ++ trR))

/-- Body of drop_scope from arena.rs: drop-safety pass, destroy the
current resolved output, destroy the previous resolved output, take the
props slot, then drain the hook slots in insertion order. -/
def dropStep (recur : Recur) (st : State) (id : Nat) : Option (State × List Event) := do
  let (st1, tr1) ← recur st (Task.eds id)
  let sc1 ← getScope st1 id
  let (st2, tr2) ←
    match sc1.node with
    | some (RenderReturn.Ready n) => recur st1 (Task.inner id n)
    | _ => some (st1, ([] : List Event))
  let sc2 ← getScope st2 id
  let (st3, tr3) ←
    match sc2.prev with
    | some (RenderReturn.Ready n) => recur st2 (Task.inner id n)
    | _ => some (st2, ([] : List Event))
  let sc3 ← getScope st3 id
  let ev4 := if sc3.props then [Event.propsTaken id] else []
  let ev5 := sc3.hook_list.map (Event.hookDropped id)
  some (st3.setScope id { sc3 with props := false, hook_list := [] },
        tr1 ++ (tr2 ++ (tr3 ++ (ev4 ++ ev5))))

/-- Body of drop_scope_inner from arena.rs: clear the listener wiring of
the node, walk the dynamic slots, then reclaim the top-level root
identifiers. -/
def innerStep (recur : Recur) (st : State) (owner : Nat) (n : VNode) :
    Option (State × List Event) :=
  match n with
  | VNode.mk root_ids listeners dyns => do
      let tr0 := listeners.map Event.wiringCleared
      let (st1, tr1) ← recur st (Task.dyns owner dyns)
      let (st2, tr2) ← recur st1 (Task.roots root_ids)
      some (st2, tr0 ++ (tr1 ++ tr2))

/-- Body of the dynamic-node loop of drop_scope_inner: components drop
their resolved child scope and then take their props; fragments recurse
into their nodes; placeholder and text slots try to reclaim their
identifier, tolerating absence. -/
def dynsStep (recur : Recur) (st : State) (owner : Nat) :
    List DynamicNode → Option (State × List Event)
  | [] => some (st, [])
  | d :: ds => do
      let (st1, tr1) ←
        match d with
        | DynamicNode.Component c => do
            let comp ← st.comps.get? c
            let (sta, tra) ←
              match comp.scope with
              | some f => recur st (Task.drop f)
              | Option.none => some (st, ([] : List Event))
            let comp1 ← sta.comps.get? c
            let ev := if comp1.props then [Event.borrowCleared owner c] else []
            some (sta.setComp c { comp1 with props := false }, tra ++ ev)
        | DynamicNode.Fragment ns => recur st (Task.frags owner ns)
        | DynamicNode.Placeholder oid =>
            match oid with
            | some i => tryReclaimEv st i
            | Option.none => some (st, ([] : List Event))
        | DynamicNode.Text oid =>
            match oid with
            | some i => tryReclaimEv st i
            | Option.none => some (st, ([] : List Event))
      let (st2, tr2) ← recur st1 (Task.dyns owner ds)
      some (st2, tr1 ++ tr2)

/-- Fragment loop of drop_scope_inner. -/
def fragsStep (recur : Recur) (st : State) (owner : Nat) :
    List VNode → Option (State × List Event)
  | [] => some (st, [])
  | n :: ns => do
      let (st1, tr1) ← recur st (Task.inner owner n)
      let (st2, tr2) ← recur st1 (Task.frags owner ns)
      some (st2, tr1 ++ tr2)

/-- Root-id loop of drop_scope_inner: identifier 0 is skipped, everything
else goes through try_reclaim with absence tolerated. -/
def rootsStep (recur : Recur) (st : State) :
    List Nat → Option (State × List Event)
  | [] => some (st, [])
  | i :: rest => do
      let (st1, tr1) ←
        if i = 0 then some (st, ([] : List Event)) else tryReclaimEv st i
      let (st2, tr2) ← recur st1 (Task.roots rest)
      some (st2, tr1 ++ tr2)

/-- Fuelled interpreter for the mutually recursive destruction functions of
arena.rs.  Fuel only bounds call depth; exhaustion yields Option.none and
no theorem below is stated about an exhausted run.  Each work item is
handled by the step function of the identically named source function. -/
def run : Nat → State → Task → Option (State × List Event)
  | 0, _, _ => Option.none
  | fuel + 1, st, t =>
    match t with
    | Task.eds id => edsStep (run fuel) st id
    | Task.edsComps owner cs => edsCompsStep (run fuel) st owner cs
    | Task.drop id => dropStep (run fuel) st id
    | Task.inner owner n => innerStep (run fuel) st owner n
    | Task.dyns owner ds => dynsStep (run fuel) st owner ds
    | Task.frags owner ns => fragsStep (run fuel) st owner ns
    | Task.roots ids => rootsStep (run fuel) st ids

/-- ensure_drop_safety from arena.rs (fuelled). -/
def ensure_drop_safety (fuel : Nat) (st : State) (id : Nat) : Option (State × List Event) :=
  run fuel st (Task.eds id)

/-- drop_scope from arena.rs (fuelled). -/
def drop_scope (fuel : Nat) (st : State) (id : Nat) : Option (State × List Event) :=
  run fuel st (Task.drop id)

/-- drop_scope_inner from arena.rs (fuelled); owner is the scope whose
node is being destroyed. -/
def drop_scope_inner (fuel : Nat) (st : State) (owner : Nat) (n : VNode) :
    Option (State × List Event) :=
  run fuel st (Task.inner owner n)


/-! ## Scenario states

Concrete engine states used to settle the temporal and end-to-end claims:
a three-scope chain A(0) - B(1) - C(2) in which A lent props to B (component
slot 0) and B lent props to C (component slot 1), a single-scope state with
an arbitrary hook list, and the two-scope end-to-end state of the spec
(root element 1, child scope with text node 2). -/

/-- Chain scenario: scope 0 lent props to scope 1 (component slot 0),
scope 1 lent props to scope 2 (component slot 1).  Listener registries and
hook lists are arbitrary. -/
def chainState (aA aB aC hA hB hC : List Nat) : State :=
  { elements := [],
    scopes :=
      [ some { borrowed_props := [0], attributes_to_drop := aA.map AttributeValue.Listener,
               props := true,
               node := some (RenderReturn.Ready (VNode.mk [] [] [DynamicNode.Component 0])),
               prev := Option.none, hook_list := hA },
        some { borrowed_props := [1], attributes_to_drop := aB.map AttributeValue.Listener,
               props := true,
               node := some (RenderReturn.Ready (VNode.mk [] [] [DynamicNode.Component 1])),
               prev := Option.none, hook_list := hB },
        some { borrowed_props := [], attributes_to_drop := aC.map AttributeValue.Listener,
               props := true, node := Option.none, prev := Option.none, hook_list := hC } ],
    comps := [{ scope := some 1, props := true, propsBorrowed := false },
              { scope := some 2, props := true, propsBorrowed := false }] }

/-- State after destroying scope 0 of the chain scenario: all registries
drained, all props gone, all hook slots destroyed. -/
def chainFinal : State :=
  { elements := [],
    scopes :=
      [ some { borrowed_props := [], attributes_to_drop := [], props := false,
               node := some (RenderReturn.Ready (VNode.mk [] [] [DynamicNode.Component 0])),
               prev := Option.none, hook_list := [] },
        some { borrowed_props := [], attributes_to_drop := [], props := false,
               node := some (RenderReturn.Ready (VNode.mk [] [] [DynamicNode.Component 1])),
               prev := Option.none, hook_list := [] },
        some { borrowed_props := [], attributes_to_drop := [], props := false,
               node := Option.none, prev := Option.none, hook_list := [] } ],
    comps := [{ scope := some 1, props := false, propsBorrowed := false },
              { scope := some 2, props := false, propsBorrowed := false }] }

/-- Event trace of destroying scope 0 of the chain scenario, exactly as the
interpreter assembles it (associativity and empty segments preserved). -/
def chainTraceRaw (aA aB aC hA hB hC : List Nat) : List Event :=
  (((((aC.map AttributeValue.Listener).filterMap (attrEvent 2) ++ [Event.borrowCleared 1 1]) ++
        (aB.map AttributeValue.Listener).filterMap (attrEvent 1)) ++ [Event.borrowCleared 0 0]) ++
      (aA.map AttributeValue.Listener).filterMap (attrEvent 0)) ++
    (Event.propsTaken 2 ::
      ((((((((hC.map (Event.hookDropped 2) ++ []) ++ []) ++ []) ++
                (Event.propsTaken 1 :: hB.map (Event.hookDropped 1))) ++ []) ++ []) ++ []) ++
        (Event.propsTaken 0 :: hA.map (Event.hookDropped 0))))

/-- The same trace in normalized form: C-pass attribute drains, then the
clearing of the props lent to C, then the B-pass attribute drains, then the
props lent to B, then the A-pass attribute drains, then props and hooks of
C, B and A in destruction order. -/
def chainTrace (aA aB aC hA hB hC : List Nat) : List Event :=
  aC.map (Event.attrCleared 2) ++
    (Event.borrowCleared 1 1 ::
      (aB.map (Event.attrCleared 1) ++
        (Event.borrowCleared 0 0 ::
          (aA.map (Event.attrCleared 0) ++
            (Event.propsTaken 2 ::
              (hC.map (Event.hookDropped 2) ++
                (Event.propsTaken 1 ::
                  (hB.map (Event.hookDropped 1) ++
                    (Event.propsTaken 0 :: hA.map (Event.hookDropped 0))))))))))

/-- Single scope with an arbitrary hook list and nothing else. -/
def hookState (hs : List Nat) : State :=
  { elements := [],
    scopes := [some { borrowed_props := [], attributes_to_drop := [], props := false,
                      node := Option.none, prev := Option.none, hook_list := hs }],
    comps := [] }

/-- End-to-end scenario of the spec: node rendered by the child scope B,
one text node with identifier 2 which is also the root identifier. -/
def nodeB : VNode := VNode.mk [2] [] [DynamicNode.Text (some 2)]

/-- End-to-end scenario of the spec: node rendered by the top scope, root
element 1 containing the component slot resolved to scope B. -/
def nodeA : VNode := VNode.mk [1] [] [DynamicNode.Component 0]

/-- End-to-end scenario of the spec: identifier table with the root
sentinel 0 and the two identifiers 1 and 2; top scope 0 lent props to
child scope 1 through component slot 0; one hook on each scope. -/
def endState : State :=
  { elements := [some ElementRef.none,
                 some { path := ElementPath.Root 0, template := some 100 },
                 some { path := ElementPath.Deep [0], template := some 101 }],
    scopes := [some { borrowed_props := [0], attributes_to_drop := [], props := true,
                      node := some (RenderReturn.Ready nodeA), prev := Option.none,
                      hook_list := [10] },
               some { borrowed_props := [], attributes_to_drop := [], props := true,
                      node := some (RenderReturn.Ready nodeB), prev := Option.none,
                      hook_list := [20] }],
    comps := [{ scope := some 1, props := true, propsBorrowed := false }] }

/-- State after destroying the top scope of the end-to-end scenario:
identifiers 1 and 2 reclaimed, the root sentinel untouched, registries
drained, props gone, hooks destroyed. -/
def endFinal : State :=
  { elements := [some ElementRef.none, Option.none, Option.none],
    scopes := [some { borrowed_props := [], attributes_to_drop := [], props := false,
                      node := some (RenderReturn.Ready nodeA), prev := Option.none,
                      hook_list := [] },
               some { borrowed_props := [], attributes_to_drop := [], props := false,
                      node := some (RenderReturn.Ready nodeB), prev := Option.none,
                      hook_list := [] }],
    comps := [{ scope := some 1, props := false, propsBorrowed := false }] }

/-! ## Ordering predicates over traces -/

/-- Every event satisfying P occurs strictly before every event satisfying
Q in the trace: there is a split with all P-events on the left of it and
all Q-events on the right. -/
def Separated (P Q : Event → Prop) (tr : List Event) : Prop :=
  ∃ l r, tr = l ++ r ∧ (∀ e ∈ l, ¬ Q e) ∧ (∀ e ∈ r, ¬ P e)

/-- The event clears a lent-props value held in a component slot of the
registry of scope S. -/
def isBorrowOf (S : Nat) : Event → Prop
  | Event.borrowCleared o _ => o = S
  | _ => False

/-- The event clears an attribute/listener registry entry of scope S. -/
def isAttrOf (S : Nat) : Event → Prop
  | Event.attrCleared o _ => o = S
  | _ => False

/-- The event drains one of the two drop-safety registries. -/
def isRegistryEvent : Event → Prop
  | Event.borrowCleared _ _ => True
  | Event.attrCleared _ _ => True
  | _ => False

/-- The event runs a hook destructor. -/
def isHookEvent : Event → Prop
  | Event.hookDropped _ _ => True
  | _ => False


/-! ## Helper lemmas -/

lemma run_succ (f : Nat) (st : State) (t : Task) :
    run (f + 1) st t =
      (match t with
       | Task.eds id => edsStep (run f) st id
       | Task.edsComps owner cs => edsCompsStep (run f) st owner cs
       | Task.drop id => dropStep (run f) st id
       | Task.inner owner n => innerStep (run f) st owner n
       | Task.dyns owner ds => dynsStep (run f) st owner ds
       | Task.frags owner ns => fragsStep (run f) st owner ns
       | Task.roots ids => rootsStep (run f) st ids) := rfl

lemma filterMap_attrEvent (S : Nat) (a : List Nat) :
    List.filterMap (attrEvent S ∘ AttributeValue.Listener) a = a.map (Event.attrCleared S) := by
  induction a with
  | nil => rfl
  | cons x xs ih => simp [attrEvent, ih]

lemma sep_intro (P Q : Event → Prop) (l r : List Event)
    (hl : ∀ e ∈ l, ¬ Q e) (hr : ∀ e ∈ r, ¬ P e) : Separated P Q (l ++ r) :=
  ⟨l, r, rfl, hl, hr⟩

lemma chain_run (aA aB aC hA hB hC : List Nat) :
    run 10 (chainState aA aB aC hA hB hC) (Task.drop 0) =
      some (chainFinal, chainTraceRaw aA aB aC hA hB hC) := rfl

lemma chain_raw_eq (aA aB aC hA hB hC : List Nat) :
    chainTraceRaw aA aB aC hA hB hC = chainTrace aA aB aC hA hB hC := by
  simp [chainTraceRaw, chainTrace, filterMap_attrEvent]

lemma chain_split_eds (aA aB aC hA hB hC : List Nat) :
    chainTrace aA aB aC hA hB hC =
      (aC.map (Event.attrCleared 2) ++
        (Event.borrowCleared 1 1 ::
          (aB.map (Event.attrCleared 1) ++
            (Event.borrowCleared 0 0 :: aA.map (Event.attrCleared 0))))) ++
      (Event.propsTaken 2 ::
        (hC.map (Event.hookDropped 2) ++
          (Event.propsTaken 1 ::
            (hB.map (Event.hookDropped 1) ++
              (Event.propsTaken 0 :: hA.map (Event.hookDropped 0)))))) := by
  simp [chainTrace]

lemma chain_split_bc11 (aA aB aC hA hB hC : List Nat) :
    chainTrace aA aB aC hA hB hC =
      (aC.map (Event.attrCleared 2) ++ [Event.borrowCleared 1 1]) ++
      (aB.map (Event.attrCleared 1) ++
        (Event.borrowCleared 0 0 ::
          (aA.map (Event.attrCleared 0) ++
            (Event.propsTaken 2 ::
              (hC.map (Event.hookDropped 2) ++
                (Event.propsTaken 1 ::
                  (hB.map (Event.hookDropped 1) ++
                    (Event.propsTaken 0 :: hA.map (Event.hookDropped 0))))))))) := by
  simp [chainTrace]

lemma chain_split_bc00 (aA aB aC hA hB hC : List Nat) :
    chainTrace aA aB aC hA hB hC =
      (aC.map (Event.attrCleared 2) ++
        (Event.borrowCleared 1 1 ::
          (aB.map (Event.attrCleared 1) ++ [Event.borrowCleared 0 0]))) ++
      (aA.map (Event.attrCleared 0) ++
        (Event.propsTaken 2 ::
          (hC.map (Event.hookDropped 2) ++
            (Event.propsTaken 1 ::
              (hB.map (Event.hookDropped 1) ++
                (Event.propsTaken 0 :: hA.map (Event.hookDropped 0))))))) := by
  simp [chainTrace]

lemma chain_sep_registry_hook (aA aB aC hA hB hC : List Nat) :
    Separated isRegistryEvent isHookEvent (chainTrace aA aB aC hA hB hC) := by
  rw [chain_split_eds]
  apply sep_intro
  · intro e he
    simp only [List.mem_append, List.mem_cons, List.mem_map, List.not_mem_nil,
      or_false, false_or] at he
    rcases he with (⟨i, _, rfl⟩ | rfl | ⟨i, _, rfl⟩ | rfl | ⟨i, _, rfl⟩) <;> simp [isHookEvent]
  · intro e he
    simp only [List.mem_append, List.mem_cons, List.mem_map, List.not_mem_nil,
      or_false, false_or] at he
    rcases he with (rfl | ⟨i, _, rfl⟩ | rfl | ⟨i, _, rfl⟩ | rfl | ⟨i, _, rfl⟩) <;>
      simp [isRegistryEvent]

lemma chain_sep_c_before_b (aA aB aC hA hB hC : List Nat) :
    Separated (fun e => e = Event.borrowCleared 1 1) (fun e => e = Event.borrowCleared 0 0)
      (chainTrace aA aB aC hA hB hC) := by
  rw [chain_split_bc11]
  apply sep_intro
  · intro e he
    simp only [List.mem_append, List.mem_cons, List.mem_map, List.not_mem_nil,
      or_false, false_or] at he
    rcases he with (⟨i, _, rfl⟩ | rfl) <;> simp
  · intro e he
    simp only [List.mem_append, List.mem_cons, List.mem_map, List.not_mem_nil,
      or_false, false_or] at he
    rcases he with (⟨i, _, rfl⟩ | rfl | ⟨i, _, rfl⟩ | rfl | ⟨i, _, rfl⟩ | rfl | ⟨i, _, rfl⟩ | rfl |
      ⟨i, _, rfl⟩) <;> simp

lemma chain_sep_b_before_a (aA aB aC hA hB hC : List Nat) :
    Separated (fun e => e = Event.borrowCleared 0 0) (fun e => e = Event.propsTaken 0)
      (chainTrace aA aB aC hA hB hC) := by
  rw [chain_split_bc00]
  apply sep_intro
  · intro e he
    simp only [List.mem_append, List.mem_cons, List.mem_map, List.not_mem_nil,
      or_false, false_or] at he
    rcases he with (⟨i, _, rfl⟩ | rfl | ⟨i, _, rfl⟩ | rfl) <;> simp
  · intro e he
    simp only [List.mem_append, List.mem_cons, List.mem_map, List.not_mem_nil,
      or_false, false_or] at he
    rcases he with (⟨i, _, rfl⟩ | rfl | ⟨i, _, rfl⟩ | rfl | ⟨i, _, rfl⟩ | rfl | ⟨i, _, rfl⟩) <;>
      simp

lemma chain_sep_borrow_attr (aA aB aC hA hB hC : List Nat) (S : Nat) :
    Separated (isBorrowOf S) (isAttrOf S) (chainTrace aA aB aC hA hB hC) := by
  by_cases h0 : S = 0
  · subst h0
    rw [chain_split_bc00]
    apply sep_intro
    · intro e he
      simp only [List.mem_append, List.mem_cons, List.mem_map, List.not_mem_nil,
        or_false, false_or] at he
      rcases he with (⟨i, _, rfl⟩ | rfl | ⟨i, _, rfl⟩ | rfl) <;> simp [isAttrOf]
    · intro e he
      simp only [List.mem_append, List.mem_cons, List.mem_map, List.not_mem_nil,
        or_false, false_or] at he
      rcases he with (⟨i, _, rfl⟩ | rfl | ⟨i, _, rfl⟩ | rfl | ⟨i, _, rfl⟩ | rfl | ⟨i, _, rfl⟩) <;>
        simp [isBorrowOf]
  by_cases h1 : S = 1
  · subst h1
    rw [chain_split_bc11]
    apply sep_intro
    · intro e he
      simp only [List.mem_append, List.mem_cons, List.mem_map, List.not_mem_nil,
        or_false, false_or] at he
      rcases he with (⟨i, _, rfl⟩ | rfl) <;> simp [isAttrOf]
    · intro e he
      simp only [List.mem_append, List.mem_cons, List.mem_map, List.not_mem_nil,
        or_false, false_or] at he
      rcases he with (⟨i, _, rfl⟩ | rfl | ⟨i, _, rfl⟩ | rfl | ⟨i, _, rfl⟩ | rfl | ⟨i, _, rfl⟩ |
        rfl | ⟨i, _, rfl⟩) <;> simp [isBorrowOf]
  · refine ⟨[], chainTrace aA aB aC hA hB hC, by simp, by simp, ?_⟩
    intro e he
    simp only [chainTrace, List.mem_append, List.mem_cons, List.mem_map, List.not_mem_nil,
      or_false, false_or] at he
    rcases he with (⟨i, _, rfl⟩ | rfl | ⟨i, _, rfl⟩ | rfl | ⟨i, _, rfl⟩ | rfl | ⟨i, _, rfl⟩ |
      rfl | ⟨i, _, rfl⟩ | rfl | ⟨i, _, rfl⟩) <;> simp [isBorrowOf] <;> omega

lemma chain_sep_pass_b (aA aB aC hA hB hC : List Nat) :
    Separated (fun e => isBorrowOf 1 e ∨ isAttrOf 2 e ∨ isBorrowOf 2 e) (isAttrOf 1)
      (chainTrace aA aB aC hA hB hC) := by
  rw [chain_split_bc11]
  apply sep_intro
  · intro e he
    simp only [List.mem_append, List.mem_cons, List.mem_map, List.not_mem_nil,
      or_false, false_or] at he
    rcases he with (⟨i, _, rfl⟩ | rfl) <;> simp [isAttrOf]
  · intro e he
    simp only [List.mem_append, List.mem_cons, List.mem_map, List.not_mem_nil,
      or_false, false_or] at he
    rcases he with (⟨i, _, rfl⟩ | rfl | ⟨i, _, rfl⟩ | rfl | ⟨i, _, rfl⟩ | rfl | ⟨i, _, rfl⟩ |
      rfl | ⟨i, _, rfl⟩) <;> simp [isBorrowOf, isAttrOf]

lemma chain_sep_pass_a (aA aB aC hA hB hC : List Nat) :
    Separated (fun e => isRegistryEvent e ∧ ¬ isAttrOf 0 e) (isAttrOf 0)
      (chainTrace aA aB aC hA hB hC) := by
  rw [chain_split_bc00]
  apply sep_intro
  · intro e he
    simp only [List.mem_append, List.mem_cons, List.mem_map, List.not_mem_nil,
      or_false, false_or] at he
    rcases he with (⟨i, _, rfl⟩ | rfl | ⟨i, _, rfl⟩ | rfl) <;> simp [isAttrOf]
  · intro e he
    simp only [List.mem_append, List.mem_cons, List.mem_map, List.not_mem_nil,
      or_false, false_or] at he
    rcases he with (⟨i, _, rfl⟩ | rfl | ⟨i, _, rfl⟩ | rfl | ⟨i, _, rfl⟩ | rfl | ⟨i, _, rfl⟩) <;>
      simp [isRegistryEvent, isAttrOf]

lemma chain_mems (aA aB aC hA hB hC : List Nat) :
    Event.borrowCleared 1 1 ∈ chainTrace aA aB aC hA hB hC ∧
    Event.borrowCleared 0 0 ∈ chainTrace aA aB aC hA hB hC ∧
    Event.propsTaken 0 ∈ chainTrace aA aB aC hA hB hC := by
  refine ⟨?_, ?_, ?_⟩ <;> simp [chainTrace]

/-! ## Claims -/

/-- C1: in the chain scenario (scope 0 lent props to scope 1 via component
slot 0, scope 1 lent props to scope 2 via component slot 1, listener
registries and hook lists arbitrary), destroying scope 0 clears the props
lent to the grandchild (borrowCleared 1 1) before the props lent to the
child (borrowCleared 0 0) and those before the top props (propsTaken 0);
within each scope the borrowed-props drain, including all recursive child
passes, precedes the attribute/listener drain; and both registries of every
scope are drained before any hook destructor of the subtree runs. -/
theorem ensure_drop_safety_chain_order (aA aB aC hA hB hC : List Nat) :
    drop_scope 10 (chainState aA aB aC hA hB hC) 0 =
        some (chainFinal, chainTrace aA aB aC hA hB hC) ∧
      Event.borrowCleared 1 1 ∈ chainTrace aA aB aC hA hB hC ∧
      Event.borrowCleared 0 0 ∈ chainTrace aA aB aC hA hB hC ∧
      Event.propsTaken 0 ∈ chainTrace aA aB aC hA hB hC ∧
      Separated (fun e => e = Event.borrowCleared 1 1) (fun e => e = Event.borrowCleared 0 0)
        (chainTrace aA aB aC hA hB hC) ∧
      Separated (fun e => e = Event.borrowCleared 0 0) (fun e => e = Event.propsTaken 0)
        (chainTrace aA aB aC hA hB hC) ∧
      (∀ S, Separated (isBorrowOf S) (isAttrOf S) (chainTrace aA aB aC hA hB hC)) ∧
      Separated (fun e => isBorrowOf 1 e ∨ isAttrOf 2 e ∨ isBorrowOf 2 e) (isAttrOf 1)
        (chainTrace aA aB aC hA hB hC) ∧
      Separated (fun e => isRegistryEvent e ∧ ¬ isAttrOf 0 e) (isAttrOf 0)
        (chainTrace aA aB aC hA hB hC) ∧
      Separated isRegistryEvent isHookEvent (chainTrace aA aB aC hA hB hC) := by
  obtain ⟨m1, m2, m3⟩ := chain_mems aA aB aC hA hB hC
  exact ⟨by rw [drop_scope, chain_run, chain_raw_eq], m1, m2, m3,
    chain_sep_c_before_b aA aB aC hA hB hC, chain_sep_b_before_a aA aB aC hA hB hC,
    fun S => chain_sep_borrow_attr aA aB aC hA hB hC S,
    chain_sep_pass_b aA aB aC hA hB hC, chain_sep_pass_a aA aB aC hA hB hC,
    chain_sep_registry_hook aA aB aC hA hB hC⟩

/-- C2: in the end-to-end scenario (top scope rendered root element 1 with
a component slot resolved to child scope 1 which rendered text node 2),
drop_scope on the top scope severs the lent props, then destroys the child
(reclaiming 2 and running its hook teardown), then reclaims 1, then runs
the top hook teardown — in exactly that order. -/
theorem drop_scope_end_to_end_trace :
    drop_scope 10 endState 0 =
      some (endFinal,
        [Event.borrowCleared 0 0, Event.reclaimed 2, Event.propsTaken 1,
         Event.hookDropped 1 20, Event.reclaimed 1, Event.propsTaken 0,
         Event.hookDropped 0 10]) := rfl

/-- C7: destroying a scope drains its hook slots strictly in insertion
order: the destruction trace of a scope whose hook list is hs is exactly
the hook-teardown events of hs in the same order (first added, first
destroyed). -/
theorem drop_scope_hooks_insertion_order (hs : List Nat) :
    drop_scope 5 (hookState hs) 0 =
      some ({ elements := [],
              scopes := [some { borrowed_props := [], attributes_to_drop := [], props := false,
                                node := Option.none, prev := Option.none, hook_list := [] }],
              comps := [] },
            hs.map (Event.hookDropped 0)) := rfl


lemma getD_set_self {α : Type} (l : List α) (i : Nat) (a d : α) (h : i < l.length) :
    (l.set i a).getD i d = a := by
  induction l generalizing i with
  | nil => simp at h
  | cons x xs ih =>
      cases i with
      | zero => simp
      | succ n => simpa using ih n (by simpa using h)

lemma getD_set_ne {α : Type} (l : List α) (i j : Nat) (a d : α) (h : i ≠ j) :
    (l.set i a).getD j d = l.getD j d := by
  induction l generalizing i j with
  | nil => simp
  | cons x xs ih =>
      cases i with
      | zero => cases j with
        | zero => exact absurd rfl h
        | succ m => simp
      | succ n => cases j with
        | zero => simp
        | succ m => simpa using ih n m (by omega)

lemma getD_some_lt {α : Type} (l : List (Option α)) (i : Nat) (r : α)
    (h : l.getD i Option.none = some r) : i < l.length := by
  induction l generalizing i with
  | nil => exact Option.noConfusion h
  | cons x xs ih =>
      cases i with
      | zero => simp
      | succ n => simpa using ih n (by simpa using h)

lemma vacantKey_getD (l : List (Option ElementRef)) :
    l.getD (vacantKey l) Option.none = Option.none := by
  induction l with
  | nil => simp
  | cons x xs ih =>
      cases x with
      | none => simp [vacantKey]
      | some a => exact ih

lemma vacantKey_le {l : List (Option ElementRef)} {el : Nat}
    (h : l.getD el Option.none = Option.none) : vacantKey l ≤ el := by
  induction l generalizing el with
  | nil => simp [vacantKey]
  | cons x xs ih =>
      cases x with
      | none => simp [vacantKey]
      | some a =>
          cases el with
          | zero => simp at h
          | succ n => simpa [vacantKey] using ih (by simpa using h)

lemma vacantKey_le_length (l : List (Option ElementRef)) : vacantKey l ≤ l.length := by
  induction l with
  | nil => simp [vacantKey]
  | cons x xs ih => cases x <;> simp [vacantKey] <;> omega

lemma slabInsert_getD_vacantKey (l : List (Option ElementRef)) (r : ElementRef) :
    (slabInsert l r).getD (vacantKey l) Option.none = some r := by
  unfold slabInsert
  by_cases h : vacantKey l < l.length
  · rw [if_pos h]
    exact getD_set_self l (vacantKey l) (some r) Option.none h
  · rw [if_neg h]
    have he : vacantKey l = l.length := Nat.le_antisymm (vacantKey_le_length l) (by omega)
    rw [he, List.getD_append_right _ _ _ _ (Nat.le_refl _)]
    simp

lemma slabInsert_getD_ne (l : List (Option ElementRef)) (r : ElementRef) (j : Nat)
    (h : j ≠ vacantKey l) : (slabInsert l r).getD j Option.none = l.getD j Option.none := by
  unfold slabInsert
  by_cases hl : vacantKey l < l.length
  · rw [if_pos hl]
    exact getD_set_ne l (vacantKey l) j (some r) Option.none (fun he => h he.symm)
  · rw [if_neg hl]
    have he : vacantKey l = l.length := Nat.le_antisymm (vacantKey_le_length l) (by omega)
    by_cases hj : j < l.length
    · exact List.getD_append _ _ _ _ hj
    · have e1 : (l ++ [some r]).getD j Option.none = Option.none := by
        apply List.getD_eq_default
        rw [List.length_append]
        simp only [List.length_cons, List.length_nil]
        omega
      have e2 : l.getD j Option.none = Option.none := by
        apply List.getD_eq_default
        omega
      rw [e1, e2]

lemma getD_lt_vacantKey {l : List (Option ElementRef)} {j : Nat} (h : j < vacantKey l) :
    l.getD j Option.none ≠ Option.none := by
  induction l generalizing j with
  | nil => simp [vacantKey] at h
  | cons x xs ih =>
      cases x with
      | none => simp [vacantKey] at h
      | some a =>
          cases j with
          | zero => simp
          | succ n => simpa using ih (by simpa [vacantKey] using h)

lemma vacantKey_slabInsert_gt (l : List (Option ElementRef)) (r : ElementRef) :
    vacantKey l < vacantKey (slabInsert l r) := by
  by_contra hc
  rcases Nat.lt_or_ge (vacantKey (slabInsert l r)) (vacantKey l) with hlt | hge
  · have h1 := vacantKey_getD (slabInsert l r)
    rw [slabInsert_getD_ne l r _ (by omega)] at h1
    exact getD_lt_vacantKey hlt h1
  · have he : vacantKey (slabInsert l r) = vacantKey l := by omega
    have h1 := vacantKey_getD (slabInsert l r)
    rw [he, slabInsert_getD_vacantKey] at h1
    exact Option.noConfusion h1

lemma alloc_reuse_aux (n : Nat) : ∀ (st : State) (el : Nat),
    st.elements.getD el Option.none = Option.none → el - vacantKey st.elements ≤ n →
    ∃ k, (next_null (allocN st k)).2 = el := by
  induction n with
  | zero =>
      intro st el h hle
      refine ⟨0, ?_⟩
      have := vacantKey_le h
      show vacantKey st.elements = el
      omega
  | succ n ih =>
      intro st el h hle
      by_cases heq : vacantKey st.elements = el
      · exact ⟨0, heq⟩
      · have hlt : vacantKey st.elements < el := by
          have := vacantKey_le h
          omega
        have h1 : (next_null st).1.elements.getD el Option.none = Option.none := by
          show (slabInsert st.elements ElementRef.none).getD el Option.none = Option.none
          rw [slabInsert_getD_ne _ _ _ (by omega)]
          exact h
        have h2 := vacantKey_slabInsert_gt st.elements ElementRef.none
        have h3 : el - vacantKey (next_null st).1.elements ≤ n := by
          show el - vacantKey (slabInsert st.elements ElementRef.none) ≤ n
          omega
        obtain ⟨k, hk⟩ := ih (next_null st).1 el h1 h3
        exact ⟨k + 1, hk⟩

/-- C3: reclaiming identifier 0 is an unrecoverable fault in every table
state, through try_reclaim and through reclaim alike; no recoverable
result is ever produced for it. -/
theorem reclaim_root_always_faults (st : State) :
    tryReclaim st 0 = Option.none ∧ reclaim st 0 = Option.none :=
  ⟨rfl, rfl⟩

/-- C5: for a nonzero identifier whose slot is already empty (vacant or
beyond the table), try_reclaim does not fault: it returns the recoverable
"not found" result and leaves the state unchanged, in contrast with the
fatal identifier-0 case. -/
theorem try_reclaim_absent_recoverable (st : State) (el : Nat) (h0 : el ≠ 0)
    (h : st.elements.getD el Option.none = Option.none) :
    tryReclaim st el = some (st, Option.none) := by
  unfold tryReclaim
  rw [if_neg h0, h]

theorem try_reclaim_absent_recoverable_witness :
    tryReclaim { elements := [some ElementRef.none], scopes := [], comps := [] } 1 =
      some ({ elements := [some ElementRef.none], scopes := [], comps := [] }, Option.none) :=
  try_reclaim_absent_recoverable _ 1 (by decide) (by decide)

/-- C8: allocation reserves a slot that was vacant at the moment of the
call (so the returned identifier differs from every currently-live one)
and stores the new reference there; and a successfully reclaimed slot is
vacant again and is returned by some later allocation. -/
theorem alloc_reclaim_roundtrip :
    (∀ (st : State) (t : Nat) (p : ElementPath),
      st.elements.getD (next_reference st t p).2 Option.none = Option.none ∧
      (∀ j, st.elements.getD j Option.none ≠ Option.none → (next_reference st t p).2 ≠ j) ∧
      (next_reference st t p).1.elements.getD (next_reference st t p).2 Option.none =
        some { path := p, template := some t }) ∧
    (∀ st : State,
      st.elements.getD (next_null st).2 Option.none = Option.none ∧
      (∀ j, st.elements.getD j Option.none ≠ Option.none → (next_null st).2 ≠ j) ∧
      (next_null st).1.elements.getD (next_null st).2 Option.none = some ElementRef.none) ∧
    (∀ (st : State) (el : Nat) (st1 : State) (r : ElementRef),
      tryReclaim st el = some (st1, some r) →
      st1.elements.getD el Option.none = Option.none ∧
      ∃ k, (next_null (allocN st1 k)).2 = el) := by
  refine ⟨fun st t p => ⟨vacantKey_getD st.elements, ?_, slabInsert_getD_vacantKey _ _⟩,
    fun st => ⟨vacantKey_getD st.elements, ?_, slabInsert_getD_vacantKey _ _⟩,
    fun st el st1 r h => ?_⟩
  · intro j hj he
    exact hj (he ▸ vacantKey_getD st.elements)
  · intro j hj he
    exact hj (he ▸ vacantKey_getD st.elements)
  · unfold tryReclaim at h
    by_cases h0 : el = 0
    · rw [if_pos h0] at h
      exact Option.noConfusion h
    · rw [if_neg h0] at h
      rcases he : st.elements.getD el Option.none with _ | r2
      · rw [he] at h
        have hbad := congrArg (fun o => (Option.map Prod.snd o)) h
        simp at hbad
      · rw [he] at h
        have hst : ({ st with elements := st.elements.set el Option.none } : State) = st1 :=
          congrArg Prod.fst (Option.some.inj h)
        have hv : st1.elements.getD el Option.none = Option.none := by
          rw [← hst]
          exact getD_set_self _ _ _ _ (getD_some_lt _ _ _ he)
        exact ⟨hv, alloc_reuse_aux (el - vacantKey st1.elements) st1 el hv (Nat.le_refl _)⟩

theorem alloc_reclaim_roundtrip_witness :
    tryReclaim (State.mk [some ElementRef.none, some ElementRef.none] [] []) 1 =
      some (State.mk [some ElementRef.none, Option.none] [] [], some ElementRef.none) ∧
    (State.mk [some ElementRef.none, Option.none] [] []).elements.getD 1 Option.none =
      Option.none ∧
    ∃ k, (next_null (allocN (State.mk [some ElementRef.none, Option.none] [] []) k)).2 = 1 :=
  ⟨rfl,
    alloc_reclaim_roundtrip.2.2 (State.mk [some ElementRef.none, some ElementRef.none] [] [])
      1 (State.mk [some ElementRef.none, Option.none] [] []) ElementRef.none rfl⟩

/-- C9: repointing the template of a currently-allocated identifier keeps
its path, stores exactly the new template, and leaves every other table
entry unchanged. -/
theorem update_template_repoints_only (st : State) (el t : Nat) (r : ElementRef)
    (h : st.elements.getD el Option.none = some r) :
    update_template st el t =
        some { st with elements := st.elements.set el (some { r with template := some t }) } ∧
    (st.elements.set el (some { r with template := some t })).getD el Option.none =
        some { path := r.path, template := some t } ∧
    (∀ j, j ≠ el →
      (st.elements.set el (some { r with template := some t })).getD j Option.none =
        st.elements.getD j Option.none) := by
  refine ⟨?_, ?_, ?_⟩
  · unfold update_template
    rw [h]
  · exact getD_set_self _ _ _ _ (getD_some_lt _ _ _ h)
  · intro j hj
    exact getD_set_ne _ _ _ _ _ (fun he => hj he.symm)

theorem update_template_repoints_only_witness :
    update_template
        (State.mk [some ElementRef.none, some (ElementRef.mk (ElementPath.Deep [0, 1]) (some 5))]
          [] []) 1 9 =
      some (State.mk
        [some ElementRef.none, some (ElementRef.mk (ElementPath.Deep [0, 1]) (some 9))] [] []) ∧
    ([some ElementRef.none, some (ElementRef.mk (ElementPath.Deep [0, 1]) (some 9))] :
        List (Option ElementRef)).getD 1 Option.none =
      some (ElementRef.mk (ElementPath.Deep [0, 1]) (some 9)) ∧
    (∀ j, j ≠ 1 →
      ([some ElementRef.none, some (ElementRef.mk (ElementPath.Deep [0, 1]) (some 9))] :
          List (Option ElementRef)).getD j Option.none =
        ([some ElementRef.none, some (ElementRef.mk (ElementPath.Deep [0, 1]) (some 5))] :
          List (Option ElementRef)).getD j Option.none) :=
  update_template_repoints_only
    (State.mk [some ElementRef.none, some (ElementRef.mk (ElementPath.Deep [0, 1]) (some 5))]
      [] [])
    1 9 (ElementRef.mk (ElementPath.Deep [0, 1]) (some 5)) (by decide)

/-- C10: every identifier handed out by next_null stores the reference
with no template and path Root(0); that path both equals and is an
ascendant of the single-element candidate sequence consisting of 0. -/
theorem next_null_stores_root_zero (st : State) :
    (next_null st).1.elements.getD (next_null st).2 Option.none = some ElementRef.none ∧
    ElementRef.none.path = ElementPath.Root 0 ∧
    ElementRef.none.template = Option.none ∧
    (ElementPath.Root 0).slice_eq [0] = true ∧
    (ElementPath.Root 0).is_ascendant [0] = true :=
  ⟨slabInsert_getD_vacantKey _ _, rfl, rfl, by decide, by decide⟩


lemma root_match_iff (r : Nat) (s : List Nat) (hr : r < 256) :
    (decide (s.length = 1) && decide (s.getD 0 0 = r % 256)) = true ↔ s = [r] := by
  cases s with
  | nil => simp
  | cons x t =>
      cases t with
      | nil => simp [Nat.mod_eq_of_lt hr]
      | cons y u => simp

/-- C4 counterexample: the Root comparison truncates the root index to a
byte, so Root(256) is an ascendant of, and equal to, the candidate
sequence consisting of 0, which is not the single-element sequence
consisting of 256. -/
theorem root_path_truncation_counterexample :
    (ElementPath.Root 256).is_ascendant [0] = true ∧
    (ElementPath.Root 256).slice_eq [0] = true ∧
    ([0] : List Nat) ≠ [256] := by decide

/-- C4 (amended): for root indices below 256, Root(r) is an ascendant of,
and equal to, exactly the single-element sequence consisting of r; a Deep
path is an ascendant of exactly the sequences it is a prefix of, itself
included; and a Root path is never an ascendant of, nor equal to, a
multi-segment sequence, for any root index. -/
theorem path_ascendancy_amended :
    (∀ (r : Nat) (s : List Nat), r < 256 →
      ((ElementPath.Root r).is_ascendant s = true ↔ s = [r]) ∧
      ((ElementPath.Root r).slice_eq s = true ↔ s = [r])) ∧
    (∀ (p s : List Nat), (ElementPath.Deep p).is_ascendant s = true ↔ p <+: s) ∧
    (∀ (r : Nat) (s : List Nat), 2 ≤ s.length →
      (ElementPath.Root r).is_ascendant s = false ∧
      (ElementPath.Root r).slice_eq s = false) := by
  refine ⟨fun r s hr => ⟨?_, ?_⟩, fun p s => ?_, fun r s h2 => ?_⟩
  · simpa [ElementPath.is_ascendant] using root_match_iff r s hr
  · simpa [ElementPath.slice_eq] using root_match_iff r s hr
  · simp only [ElementPath.is_ascendant, Bool.and_eq_true, decide_eq_true_eq]
    constructor
    · rintro ⟨hle, heq⟩
      exact List.prefix_iff_eq_take.2 heq
    · intro h
      exact ⟨h.length_le, List.prefix_iff_eq_take.1 h⟩
  · have hne : s.length ≠ 1 := by omega
    constructor <;>
      simp [ElementPath.is_ascendant, ElementPath.slice_eq, hne]

theorem path_ascendancy_amended_witness :
    (((ElementPath.Root 3).is_ascendant [3] = true ↔ ([3] : List Nat) = [3]) ∧
      ((ElementPath.Root 3).slice_eq [3] = true ↔ ([3] : List Nat) = [3])) ∧
    ((ElementPath.Deep [1]).is_ascendant [1, 2] = true ↔ [1] <+: [1, 2]) ∧
    ((ElementPath.Root 4).is_ascendant [1, 2] = false ∧
      (ElementPath.Root 4).slice_eq [1, 2] = false) :=
  ⟨path_ascendancy_amended.1 3 [3] (by decide), path_ascendancy_amended.2.1 [1] [1, 2],
   path_ascendancy_amended.2.2 4 [1, 2] (by decide)⟩


/-- C6: drop_scope_inner on a node whose root-id list [0, 1] shares
identifier 1 with its placeholder slot, over a table whose slot 0 holds an
arbitrary entry and slot 1 an arbitrary reference: the placeholder pass
reclaims 1, the root pass finds it already absent and is a silent no-op,
identifier 0 is skipped outright (slot 0 is untouched whatever it holds),
and the walk completes without a fault, emitting exactly one reclamation
event. -/
theorem drop_scope_inner_idempotent_reclaim (e0 : Option ElementRef) (r : ElementRef) :
    drop_scope_inner 5 (State.mk [e0, some r] [] []) 0
        (VNode.mk [0, 1] [] [DynamicNode.Placeholder (some 1)]) =
      some (State.mk [e0, Option.none] [] [], [Event.reclaimed 1]) := rfl

end DioxusArena
